import Mathlib

/-!
Pagination drivers of `tweets.go`.

A shallow embedding of the five endpoint functions of `tweets.go`
(`GetUserMentions`, `GetUserTweets`, `GetTweets`, `GetTweetByID`,
`GetReTweetedBy`) and of the goroutine each of them starts.

The goroutine is a small-step machine whose program counter names the
statement about to run.  The queue worker is the environment: it is given
as a script, the list of responses the response channel will still deliver,
after which the channel is closed.  The caller is assumed to read `data`
and `errors`, so a send on an open channel always completes.
-/

namespace Twitter

/-! ## Data model -/

/-- Go's `url.Values`, a `map[string][]string`, as an association list. -/
abbrev Values := List (String × List String)

/-- The map index `v[key]`: the values bound to `key`, `nil` when absent. -/
def Values.index (v : Values) (key : String) : List String :=
  match v.lookup key with
  | some vs => vs
  | none => []

/-- Tells whether `key` is bound in the map. -/
def Values.has (v : Values) (key : String) : Bool :=
  (v.lookup key).isSome

/-- The assignment `v[key] = vs`: rebinds `key`, leaves every other key. -/
def Values.assign (v : Values) (key : String) (vs : List String) : Values :=
  (key, vs) :: v.filter (fun kv => kv.1 != key)

/-- Go's `func (v Values) Add(key, value string)`:
`v[key] = append(v[key], value)`. -/
def Values.Add (v : Values) (key value : String) : Values :=
  v.assign key (v.index key ++ [value])

/-- The `Meta` object of a payload; the driver reads `NextToken` only. -/
structure Meta where
  NextToken : String
deriving DecidableEq, Repr

/-- The decoded payload `Data`.  `Meta` is a pointer in the source, `nil`
being `none`; `Body` stands for every other decoded field, which the
driver never inspects. -/
structure Data where
  Body : String
  Meta : Option Meta
deriving DecidableEq, Repr

/-- One outcome published by the queue: `Results` and a nil-able `Error`. -/
structure Response where
  Results : Data
  Error : Option String
deriving DecidableEq, Repr

/-- The request object built by `NewRquest` and reused across rounds. -/
structure Request where
  Method : String
  URL : String
  Values : Values
  Body : Option String
  Results : Option Data
deriving DecidableEq, Repr

/-- The call `NewRquest(method, url, v, body)` as the endpoints use it. -/
def NewRquest (method url : String) (v : Values) (body : Option String) : Request :=
  { Method := method, URL := url, Values := v, Body := body, Results := none }

/-- Modelled from the spec: `Request.UpdateURLValues` is not in `tweets.go`.
The spec calls it a merge-update: it adds or overwrites the given query
keys and discards no unrelated existing key. -/
def Request.UpdateURLValues (req : Request) (nv : Twitter.Values) : Request :=
  { req with Values := nv.foldl (fun acc kv => Values.assign acc kv.1 kv.2) req.Values }

/-- Modelled from the spec: `Request.ResetResults` is not in `tweets.go`.
The spec says it clears the payload retained from the previous round. -/
def Request.ResetResults (req : Request) : Request :=
  { req with Results := none }

/-- Go's `time.Minute`, in nanoseconds. -/
def Minute : Nat := 60 * 1000000000

/-- The fields of `Queue` the endpoints set through `NewQueue`. -/
structure Queue where
  interval : Nat
  window : Nat
  auto : Bool
deriving DecidableEq, Repr

/-- The call `NewQueue(interval, window, auto, ...)`; `auto` is the flag
once the caller's options have been applied (`true` when none touches it). -/
def NewQueue (interval window : Nat) (auto : Bool) : Queue :=
  { interval := interval, window := window, auto := auto }

/-! ## The goroutine as a machine -/

/-- Program counter of the goroutine: the statement about to run. -/
inductive Pc where
  /-- The receive `res, ok := <-q.responseChannel`. -/
  | recv
  /-- The send `d <- &res.Results`. -/
  | sendData (res : Response)
  /-- The guarded send `if res.Error != nil { e <- res.Error }`. -/
  | sendError (res : Response)
  /-- The continuation check of the paginating endpoints. -/
  | check (res : Response)
  /-- The update `nv := url.Values{}; nv.Add(...); req.UpdateURLValues(nv)`. -/
  | update (token : String)
  /-- The call `req.ResetResults()`. -/
  | reset
  /-- The send `q.requestsChannel <- req`. -/
  | resubmit
  /-- The deferred `close(e)`, the first deferred call to run. -/
  | closeErrors
  /-- The deferred `close(d)`. -/
  | closeData
  /-- The goroutine has returned. -/
  | done
  /-- A send on, or a close of, a closed channel. -/
  | panicked
deriving DecidableEq, Repr

/-- State of one driver session. `q` is the queue the endpoint created;
`consumed` and `failedReceives` record what the receive statement has seen;
`requestsChannel` records every request sent to the queue, as it was when
sent. -/
structure State where
  pc : Pc
  q : Queue
  responseChannel : List Response
  requestsChannel : List Request
  req : Request
  consumed : List Response
  failedReceives : Nat
  data : List Data
  errors : List String
  dataCloses : Nat
  errorsCloses : Nat
deriving DecidableEq, Repr

/-- The values built before a resubmission:
`nv := url.Values{}; nv.Add("pagination_token", token)`. -/
def nextValues (token : String) : Values :=
  Values.Add [] "pagination_token" token

/-- The condition
`res.Results.Meta != nil && res.Results.Meta.NextToken != "" && q.auto`. -/
def hasNextPage (auto : Bool) (res : Response) : Bool :=
  match res.Results.Meta with
  | none => false
  | some m => m.NextToken != "" && auto

/-- One statement of the goroutine. `paginate` tells whether the endpoint's
loop has the continuation block (`GetUserMentions`, `GetUserTweets`,
`GetTweets`) or breaks right after relaying (`GetTweetByID`,
`GetReTweetedBy`). -/
def step (paginate : Bool) (s : State) : State :=
  match s.pc with
  | .recv =>
    match s.responseChannel with
    | [] => { s with pc := .closeErrors, failedReceives := s.failedReceives + 1 }
    | res :: rest =>
      { s with pc := .sendData res, responseChannel := rest, consumed := s.consumed ++ [res] }
  | .sendData res =>
    if s.dataCloses = 0 then { s with pc := .sendError res, data := s.data ++ [res.Results] }
    else { s with pc := .panicked }
  | .sendError res =>
    let next := if paginate then Pc.check res else Pc.closeErrors
    match res.Error with
    | none => { s with pc := next }
    | some err =>
      if s.errorsCloses = 0 then { s with pc := next, errors := s.errors ++ [err] }
      else { s with pc := .panicked }
  | .check res =>
    match res.Results.Meta with
    | none => { s with pc := .closeErrors }
    | some m =>
      if m.NextToken != "" && s.q.auto then { s with pc := .update m.NextToken }
      else { s with pc := .closeErrors }
  | .update token =>
    { s with pc := .reset, req := s.req.UpdateURLValues (nextValues token) }
  | .reset => { s with pc := .resubmit, req := s.req.ResetResults }
  | .resubmit => { s with pc := .recv, requestsChannel := s.requestsChannel ++ [s.req] }
  | .closeErrors =>
    if s.errorsCloses = 0 then { s with pc := .closeData, errorsCloses := s.errorsCloses + 1 }
    else { s with pc := .panicked }
  | .closeData =>
    if s.dataCloses = 0 then { s with pc := .done, dataCloses := s.dataCloses + 1 }
    else { s with pc := .panicked }
  | .done => s
  | .panicked => s

/-- The step relation: a state that has neither returned nor panicked
moves to the state its next statement produces. -/
def Step (paginate : Bool) (s t : State) : Prop :=
  s.pc ≠ .done ∧ s.pc ≠ .panicked ∧ t = step paginate s

/-- Runs `n` statements. -/
def run (paginate : Bool) : Nat → State → State
  | 0, s => s
  | n + 1, s => run paginate n (step paginate s)

/-- The state in which the goroutine starts: the seed request has been sent
(`queue.requestsChannel <- request`), both caller channels are open. -/
def start (q : Queue) (request : Request) (script : List Response) : State :=
  { pc := .recv, q := q, responseChannel := script,
    requestsChannel := [request], req := request, consumed := [],
    failedReceives := 0, data := [], errors := [], dataCloses := 0, errorsCloses := 0 }

/-- Statements that suffice for the goroutine to return on `script`: seven
per round, three for the exit on a closed channel. -/
def fuel (script : List Response) : Nat := 7 * script.length + 3

/-- The session run to its end. -/
def session (paginate : Bool) (q : Queue) (request : Request)
    (script : List Response) : State :=
  run paginate (fuel script) (start q request script)

/-- States the session passes through. -/
def Reachable (paginate : Bool) (q : Queue) (request : Request)
    (script : List Response) (s : State) : Prop :=
  ∃ n, run paginate n (start q request script) = s

/-! ## The endpoints -/

/-- The function `GetUserMentions`; its result is the final session state. -/
def GetUserMentions (baseURL id : String) (v : Values) (auto : Bool)
    (script : List Response) : State :=
  let queue := NewQueue (15 * Minute / 1500) (15 * Minute) auto
  let request := NewRquest "GET" (baseURL ++ "/users/" ++ id ++ "/mentions") v none
  session true queue request script

/-- The function `GetUserTweets`. -/
def GetUserTweets (baseURL id : String) (v : Values) (auto : Bool)
    (script : List Response) : State :=
  let queue := NewQueue (15 * Minute / 1500) (15 * Minute) auto
  let request := NewRquest "GET" (baseURL ++ "/users/" ++ id ++ "/tweets") v none
  session true queue request script

/-- The function `GetTweets`. -/
def GetTweets (baseURL : String) (v : Values) (auto : Bool)
    (script : List Response) : State :=
  let queue := NewQueue (15 * Minute / 1500) (15 * Minute) auto
  let request := NewRquest "GET" (baseURL ++ "/tweets") v none
  session true queue request script

/-- The function `GetTweetByID`. -/
def GetTweetByID (baseURL id : String) (v : Values) (auto : Bool)
    (script : List Response) : State :=
  let queue := NewQueue (15 * Minute / 1500) (15 * Minute) auto
  let request := NewRquest "GET" (baseURL ++ "/tweets/" ++ id) v none
  session false queue request script

/-- The function `GetReTweetedBy`. -/
def GetReTweetedBy (baseURL id : String) (v : Values) (auto : Bool)
    (script : List Response) : State :=
  let queue := NewQueue (15 * Minute / 1500) (15 * Minute) auto
  let request := NewRquest "GET" (baseURL ++ "/tweets/" ++ id ++ "/retweeted_by") v none
  session false queue request script

/-- The five endpoint functions of `tweets.go`. -/
inductive Endpoint where
  | userMentions
  | userTweets
  | tweets
  | tweetByID
  | reTweetedBy
deriving DecidableEq, Repr

/-- Calls the endpoint function (`GetTweets` takes no `id`). -/
def Endpoint.call (ep : Endpoint) (baseURL id : String) (v : Values) (auto : Bool)
    (script : List Response) : State :=
  match ep with
  | .userMentions => GetUserMentions baseURL id v auto script
  | .userTweets => GetUserTweets baseURL id v auto script
  | .tweets => GetTweets baseURL v auto script
  | .tweetByID => GetTweetByID baseURL id v auto script
  | .reTweetedBy => GetReTweetedBy baseURL id v auto script

/-- Tells whether the endpoint's loop has the continuation block. -/
def Endpoint.paginates : Endpoint → Bool
  | .userMentions => true
  | .userTweets => true
  | .tweets => true
  | .tweetByID => false
  | .reTweetedBy => false

/-- The app rate limit per 15 minutes that the endpoint's doc comment
states (`Rate Limit: N/15m (app)`). -/
def Endpoint.documentedRateLimit : Endpoint → Nat
  | .userMentions => 450
  | .userTweets => 1500
  | .tweets => 300
  | .tweetByID => 300
  | .reTweetedBy => 300

/-- The queue and the seed request the endpoint function creates. -/
def Endpoint.seed (ep : Endpoint) (baseURL id : String) (v : Values) (auto : Bool) :
    Queue × Request :=
  ((ep.call baseURL id v auto []).q,
   ((ep.call baseURL id v auto []).requestsChannel.headD (NewRquest "" "" [] none)))

/-- States the endpoint's goroutine passes through on `script`. -/
def Endpoint.Reaches (ep : Endpoint) (baseURL id : String) (v : Values) (auto : Bool)
    (script : List Response) (s : State) : Prop :=
  Reachable ep.paginates (ep.seed baseURL id v auto).1 (ep.seed baseURL id v auto).2 script s

/-! ## Closed form of a session -/

/-- The token the continuation block reads, `res.Results.Meta.NextToken`. -/
def token (res : Response) : String :=
  match res.Results.Meta with
  | some m => m.NextToken
  | none => ""

/-- The request as resubmitted after a response carrying `tok`. -/
def nextRequest (req : Request) (tok : String) : Request :=
  (req.UpdateURLValues (nextValues tok)).ResetResults

/-- Effect of the two relaying sends of one round. -/
def relay (res : Response) (rest : List Response) (s : State) : State :=
  { s with responseChannel := rest, consumed := s.consumed ++ [res],
           data := s.data ++ [res.Results], errors := s.errors ++ res.Error.toList }

/-- Effect of the two deferred closes. -/
def finish (s : State) : State :=
  { s with pc := .done, errorsCloses := s.errorsCloses + 1, dataCloses := s.dataCloses + 1 }

/-- The loop as one recursion over the script, from a state at the receive. -/
def loop (paginate : Bool) : List Response → State → State
  | [], s => finish { s with failedReceives := s.failedReceives + 1 }
  | res :: rest, s =>
    if paginate && hasNextPage s.q.auto res then
      loop paginate rest
        { relay res rest s with
          req := nextRequest s.req (token res),
          requestsChannel := s.requestsChannel ++ [nextRequest s.req (token res)] }
    else finish (relay res rest s)

/-- The responses the loop receives from `script`: up to and including
the first one after which it does not continue. -/
def pages (paginate auto : Bool) : List Response → List Response
  | [] => []
  | res :: rest =>
    if paginate && hasNextPage auto res then res :: pages paginate auto rest else [res]

/-- Tells whether the loop continues after every response of `script`, so
that it ends on a receive from the closed channel. -/
def exhausts (paginate auto : Bool) : List Response → Bool
  | [] => true
  | res :: rest => (paginate && hasNextPage auto res) && exhausts paginate auto rest

/-- The requests the loop resubmits on `script`, starting from `req`. -/
def resubmissions (paginate auto : Bool) (req : Request) : List Response → List Request
  | [] => []
  | res :: rest =>
    if paginate && hasNextPage auto res then
      nextRequest req (token res) ::
        resubmissions paginate auto (nextRequest req (token res)) rest
    else []

/-- Tells whether the payload has a non-nil `Meta` with a non-empty
`NextToken`. -/
def Response.carriesToken (res : Response) : Bool :=
  match res.Results.Meta with
  | none => false
  | some m => m.NextToken != ""

/-- What holds of every state of a session seeded with `seed`: no panic;
both channels open until the loop is left; the count of requests sent
against responses received; what has been relayed so far; and, where the
loop has no continuation block, an untouched request. -/
def Inv (paginate : Bool) (seed : Request) (s : State) : Prop :=
  s.pc ≠ .panicked ∧
  (match s.pc with
    | .closeData => s.errorsCloses = 1 ∧ s.dataCloses = 0
    | .done => s.errorsCloses = 1 ∧ s.dataCloses = 1
    | _ => s.errorsCloses = 0 ∧ s.dataCloses = 0) ∧
  (match s.pc with
    | .recv => s.requestsChannel.length = s.consumed.length + 1
    | .closeErrors | .closeData | .done =>
      s.requestsChannel.length = s.consumed.length ∨
        s.requestsChannel.length = s.consumed.length + 1
    | _ => s.requestsChannel.length = s.consumed.length) ∧
  (match s.pc with
    | .sendData res =>
      ∃ c, s.consumed = c ++ [res] ∧ s.data = c.map Response.Results ∧
        s.errors = c.filterMap Response.Error
    | .sendError res =>
      ∃ c, s.consumed = c ++ [res] ∧ s.data = s.consumed.map Response.Results ∧
        s.errors = c.filterMap Response.Error
    | _ => s.data = s.consumed.map Response.Results ∧
        s.errors = s.consumed.filterMap Response.Error) ∧
  (paginate = false →
    s.req = seed ∧ s.requestsChannel = [seed] ∧
      (match s.pc with
        | .check _ | .update _ | .reset | .resubmit => False
        | _ => True))

/-! ## Sample inputs -/

/-- Base URL of version 2 of the API. -/
def sampleBase : String := "https://api.twitter.com/2"

/-- Query parameters a caller might pass. -/
def sampleValues : Values := [("max_results", ["5"]), ("tweet.fields", ["created_at"])]

/-- A first page, carrying the token T1. -/
def page1 : Response := { Results := { Body := "page 1", Meta := some { NextToken := "T1" } }, Error := none }

/-- A second page, carrying the token T2. -/
def page2 : Response := { Results := { Body := "page 2", Meta := some { NextToken := "T2" } }, Error := none }

/-- A last page: its `Meta` has an empty `NextToken`. -/
def page3 : Response := { Results := { Body := "page 3", Meta := some { NextToken := "" } }, Error := none }

/-- A page carrying the token T1 together with an error. -/
def page1Failed : Response :=
  { Results := { Body := "page 1", Meta := some { NextToken := "T1" } },
    Error := some "rate limit exceeded" }

/-- A single tweet: no `Meta` at all. -/
def tweet : Response := { Results := { Body := "tweet 20", Meta := none }, Error := none }

/-! ## Running the machine -/

theorem run_add (p : Bool) (m n : Nat) (s : State) :
    run p (m + n) s = run p n (run p m s) := by
  induction m generalizing s with
  | zero => simp [run]
  | succ k ih =>
    have h : k + 1 + n = (k + n) + 1 := by omega
    rw [h]
    simp only [run]
    exact ih _

theorem run_done (p : Bool) (n : Nat) (s : State) (h : s.pc = .done) :
    run p n s = s := by
  induction n with
  | zero => rfl
  | succ k ih =>
    have hs : step p s = s := by
      unfold step
      rw [h]
    simp only [run, hs, ih]

theorem finish_pc (s : State) : (finish s).pc = .done := rfl

theorem run_closed (p : Bool) (s : State) (hpc : s.pc = .recv)
    (hd : s.dataCloses = 0) (he : s.errorsCloses = 0) (hr : s.responseChannel = []) :
    run p 3 s = finish { s with failedReceives := s.failedReceives + 1 } := by
  obtain ⟨pc, q, rc, qc, req, cons, fr, d, e, dc, ec⟩ := s
  simp only at hpc hd he hr
  subst hpc hd he hr
  simp [run, step, finish]

theorem run_stop (p : Bool) (s : State) (res : Response) (rest : List Response)
    (hpc : s.pc = .recv) (hd : s.dataCloses = 0) (he : s.errorsCloses = 0)
    (hr : s.responseChannel = res :: rest)
    (hc : (p && hasNextPage s.q.auto res) = false) :
    run p 6 s = finish (relay res rest s) := by
  obtain ⟨pc, ⟨iv, w, auto⟩, rc, qc, req, cons, fr, d, e, dc, ec⟩ := s
  obtain ⟨⟨body, m⟩, err⟩ := res
  simp only at hpc hd he hr hc
  subst hpc hd he hr
  cases p
  · cases err <;> simp [run, step, finish, relay]
  · cases m with
    | none => cases err <;> simp [run, step, finish, relay]
    | some m =>
      simp only [hasNextPage, Bool.true_and] at hc
      cases err <;> simp [run, step, finish, relay, hc]

theorem run_continue (p : Bool) (s : State) (res : Response) (rest : List Response)
    (hpc : s.pc = .recv) (hd : s.dataCloses = 0) (he : s.errorsCloses = 0)
    (hr : s.responseChannel = res :: rest)
    (hc : (p && hasNextPage s.q.auto res) = true) :
    run p 7 s =
      { relay res rest s with
        req := nextRequest s.req (token res),
        requestsChannel := s.requestsChannel ++ [nextRequest s.req (token res)] } := by
  obtain ⟨pc, ⟨iv, w, auto⟩, rc, qc, req, cons, fr, d, e, dc, ec⟩ := s
  obtain ⟨⟨body, m⟩, err⟩ := res
  simp only at hpc hd he hr hc
  subst hpc hd he hr
  cases p
  · simp at hc
  · cases m with
    | none => simp [hasNextPage] at hc
    | some m =>
      simp only [hasNextPage, Bool.true_and] at hc
      cases err <;> simp [run, step, relay, token, nextRequest, hc]

theorem run_loop (p : Bool) (script : List Response) (s : State)
    (hpc : s.pc = .recv) (hd : s.dataCloses = 0) (he : s.errorsCloses = 0)
    (hr : s.responseChannel = script) :
    run p (fuel script) s = loop p script s := by
  induction script generalizing s with
  | nil => simpa [fuel, loop] using run_closed p s hpc hd he hr
  | cons res rest ih =>
    have hf : fuel (res :: rest) = 7 + fuel rest := by simp [fuel]; omega
    cases hc : (p && hasNextPage s.q.auto res) with
    | true =>
      rw [hf, run_add, run_continue p s res rest hpc hd he hr hc]
      simp only [loop, hc, if_true]
      exact ih _ hpc hd he rfl
    | false =>
      have hf2 : fuel (res :: rest) = 6 + (1 + fuel rest) := by simp [fuel]; omega
      rw [hf2, run_add, run_stop p s res rest hpc hd he hr hc]
      simp only [loop, hc]
      exact run_done p _ _ (finish_pc _)

/-! ## Projections of the closed form -/

theorem hasNextPage_eq (auto : Bool) (res : Response) :
    hasNextPage auto res = (res.carriesToken && auto) := by
  unfold hasNextPage Response.carriesToken
  cases res.Results.Meta <;> simp

theorem loop_pc (p : Bool) (script : List Response) (s : State) :
    (loop p script s).pc = .done := by
  induction script generalizing s with
  | nil => rfl
  | cons res rest ih =>
    simp only [loop]
    split
    · exact ih _
    · rfl

theorem loop_q (p : Bool) (script : List Response) (s : State) :
    (loop p script s).q = s.q := by
  induction script generalizing s with
  | nil => rfl
  | cons res rest ih =>
    simp only [loop]
    split
    · rw [ih]; rfl
    · rfl

theorem loop_dataCloses (p : Bool) (script : List Response) (s : State) :
    (loop p script s).dataCloses = s.dataCloses + 1 := by
  induction script generalizing s with
  | nil => rfl
  | cons res rest ih =>
    simp only [loop]
    split
    · rw [ih]; rfl
    · rfl

theorem loop_errorsCloses (p : Bool) (script : List Response) (s : State) :
    (loop p script s).errorsCloses = s.errorsCloses + 1 := by
  induction script generalizing s with
  | nil => rfl
  | cons res rest ih =>
    simp only [loop]
    split
    · rw [ih]; rfl
    · rfl

theorem loop_consumed (p : Bool) (script : List Response) (s : State) :
    (loop p script s).consumed = s.consumed ++ pages p s.q.auto script := by
  induction script generalizing s with
  | nil => simp [loop, finish, pages]
  | cons res rest ih =>
    simp only [loop, pages]
    split
    · rw [ih]; simp [relay]
    · simp [finish, relay]

theorem loop_data (p : Bool) (script : List Response) (s : State) :
    (loop p script s).data = s.data ++ (pages p s.q.auto script).map Response.Results := by
  induction script generalizing s with
  | nil => simp [loop, finish, pages]
  | cons res rest ih =>
    simp only [loop, pages]
    split
    · rw [ih]; simp [relay]
    · simp [finish, relay]

theorem loop_errors (p : Bool) (script : List Response) (s : State) :
    (loop p script s).errors =
      s.errors ++ (pages p s.q.auto script).filterMap Response.Error := by
  induction script generalizing s with
  | nil => simp [loop, finish, pages]
  | cons res rest ih =>
    simp only [loop, pages]
    split
    · rw [ih]
      cases h : res.Error <;> simp [relay, h, List.filterMap_cons]
    · cases h : res.Error <;> simp [finish, relay, h, List.filterMap_cons]

theorem loop_responseChannel (p : Bool) (script : List Response) (s : State)
    (hr : s.responseChannel = script) :
    (loop p script s).responseChannel = script.drop (pages p s.q.auto script).length := by
  induction script generalizing s with
  | nil => simp [loop, finish, pages, hr]
  | cons res rest ih =>
    simp only [loop, pages]
    split
    · rw [ih _ rfl]; simp [relay]
    · simp [finish, relay]

theorem loop_requestsChannel (p : Bool) (script : List Response) (s : State) :
    (loop p script s).requestsChannel =
      s.requestsChannel ++ resubmissions p s.q.auto s.req script := by
  induction script generalizing s with
  | nil => simp [loop, finish, resubmissions]
  | cons res rest ih =>
    simp only [loop, resubmissions]
    split
    · rw [ih]; simp [relay]
    · simp [finish, relay]

theorem loop_failedReceives (p : Bool) (script : List Response) (s : State) :
    (loop p script s).failedReceives =
      s.failedReceives + (if exhausts p s.q.auto script then 1 else 0) := by
  induction script generalizing s with
  | nil => simp [loop, finish, exhausts]
  | cons res rest ih =>
    simp only [loop, exhausts]
    split
    · rename_i h
      rw [ih]; simp [relay, h]
    · rename_i h
      simp [finish, relay, h]

theorem pages_prefix (p auto : Bool) (script : List Response) :
    pages p auto script ++ script.drop (pages p auto script).length = script := by
  induction script with
  | nil => simp [pages]
  | cons res rest ih =>
    simp only [pages]
    split
    · simpa using ih
    · simp

theorem resubmissions_length (p auto : Bool) (req : Request) (script : List Response) :
    (resubmissions p auto req script).length =
      ((pages p auto script).filter (fun res => p && hasNextPage auto res)).length := by
  induction script generalizing req with
  | nil => simp [resubmissions, pages]
  | cons res rest ih =>
    simp only [resubmissions, pages]
    split
    · rename_i h
      simp [ih, h, List.filter_cons]
    · rename_i h
      simp [h, List.filter_cons]

theorem session_eq_loop (p : Bool) (q : Queue) (request : Request) (script : List Response) :
    session p q request script = loop p script (start q request script) :=
  run_loop p script _ rfl rfl rfl rfl

theorem call_eq_loop (ep : Endpoint) (b id : String) (v : Values) (auto : Bool)
    (script : List Response) :
    ep.call b id v auto script =
      loop ep.paginates script
        (start (ep.seed b id v auto).1 (ep.seed b id v auto).2 script) := by
  cases ep <;>
    simp [Endpoint.call, Endpoint.seed, Endpoint.paginates, GetUserMentions, GetUserTweets,
      GetTweets, GetTweetByID, GetReTweetedBy, session_eq_loop, loop, finish, start]

theorem seed_auto (ep : Endpoint) (b id : String) (v : Values) (auto : Bool) :
    (ep.seed b id v auto).1.auto = auto := by
  cases ep <;>
    simp [Endpoint.call, Endpoint.seed, GetUserMentions, GetUserTweets,
      GetTweets, GetTweetByID, GetReTweetedBy, session_eq_loop, loop, finish, start, NewQueue]

theorem seed_values (ep : Endpoint) (b id : String) (v : Values) (auto : Bool) :
    (ep.seed b id v auto).2.Values = v := by
  cases ep <;>
    simp [Endpoint.call, Endpoint.seed, GetUserMentions, GetUserTweets,
      GetTweets, GetTweetByID, GetReTweetedBy, session_eq_loop, loop, finish, start, NewRquest]

/-! ## Invariant of the machine -/

theorem run_succ (p : Bool) (n : Nat) (s : State) :
    run p (n + 1) s = step p (run p n s) := by
  rw [run_add]; rfl

theorem inv_start (p : Bool) (q : Queue) (request : Request) (script : List Response) :
    Inv p request (start q request script) := by
  simp [Inv, start]

theorem inv_step (p : Bool) (seed : Request) (s : State) (h : Inv p seed s) :
    Inv p seed (step p s) := by
  obtain ⟨pc, q, rc, qc, req, cons, fr, d, e, dc, ec⟩ := s
  cases pc with
  | recv =>
    cases rc with
    | nil => simp_all [Inv, step]
    | cons res rest => simp_all [Inv, step]
  | sendData res =>
    obtain ⟨_, ⟨hec, hdc⟩, hfl, ⟨c, hc, hdat, herr⟩, hnp⟩ := h
    simp only at hec hdc hfl hc hdat herr hnp
    subst hdc hec hc hdat herr
    refine ⟨by simp [step], by simp [step], by simpa [step] using hfl, ?_, ?_⟩
    · exact ⟨c, by simp [step]⟩
    · intro hp
      simpa [step] using hnp hp
  | sendError res =>
    obtain ⟨_, ⟨hec, hdc⟩, hfl, ⟨c, hc, hdat, herr⟩, hnp⟩ := h
    simp only at hec hdc hfl hc hdat herr hnp
    subst hdc hec hc hdat herr
    cases p <;> cases hE : res.Error <;>
      simp_all [Inv, step, List.filterMap_append]
  | check res =>
    obtain ⟨⟨body, m⟩, err⟩ := res
    cases m with
    | none => simp_all [Inv, step]
    | some m =>
      by_cases hc : (m.NextToken != "" && q.auto) = true
      · have hs : step p ⟨.check ⟨⟨body, some m⟩, err⟩, q, rc, qc, req, cons, fr, d, e, dc, ec⟩ =
            ⟨.update m.NextToken, q, rc, qc, req, cons, fr, d, e, dc, ec⟩ := by
          simp only [step, if_pos hc]
        rw [hs]
        simp_all [Inv]
      · have hs : step p ⟨.check ⟨⟨body, some m⟩, err⟩, q, rc, qc, req, cons, fr, d, e, dc, ec⟩ =
            ⟨.closeErrors, q, rc, qc, req, cons, fr, d, e, dc, ec⟩ := by
          simp only [step, if_neg hc]
        rw [hs]
        simp_all [Inv]
  | update tok => simp_all [Inv, step]
  | reset => simp_all [Inv, step]
  | resubmit => simp_all [Inv, step]
  | closeErrors => simp_all [Inv, step]
  | closeData => simp_all [Inv, step]
  | done => simp_all [Inv, step]
  | panicked => simp_all [Inv, step]

theorem reachable_inv (p : Bool) (q : Queue) (request : Request) (script : List Response)
    (s : State) (h : Reachable p q request script s) : Inv p request s := by
  obtain ⟨n, rfl⟩ := h
  induction n with
  | zero => exact inv_start p q request script
  | succ k ih =>
    rw [run_succ]
    exact inv_step p request _ ih

/-! ## The final state of an endpoint call -/

theorem call_pc (ep : Endpoint) (b id : String) (v : Values) (auto : Bool)
    (script : List Response) : (ep.call b id v auto script).pc = .done := by
  rw [call_eq_loop, loop_pc]

theorem call_dataCloses (ep : Endpoint) (b id : String) (v : Values) (auto : Bool)
    (script : List Response) : (ep.call b id v auto script).dataCloses = 1 := by
  rw [call_eq_loop, loop_dataCloses]; rfl

theorem call_errorsCloses (ep : Endpoint) (b id : String) (v : Values) (auto : Bool)
    (script : List Response) : (ep.call b id v auto script).errorsCloses = 1 := by
  rw [call_eq_loop, loop_errorsCloses]; rfl

theorem call_consumed (ep : Endpoint) (b id : String) (v : Values) (auto : Bool)
    (script : List Response) :
    (ep.call b id v auto script).consumed = pages ep.paginates auto script := by
  rw [call_eq_loop, loop_consumed]
  simp [start, seed_auto]

theorem call_data (ep : Endpoint) (b id : String) (v : Values) (auto : Bool)
    (script : List Response) :
    (ep.call b id v auto script).data =
      (pages ep.paginates auto script).map Response.Results := by
  rw [call_eq_loop, loop_data]
  simp [start, seed_auto]

theorem call_errors (ep : Endpoint) (b id : String) (v : Values) (auto : Bool)
    (script : List Response) :
    (ep.call b id v auto script).errors =
      (pages ep.paginates auto script).filterMap Response.Error := by
  rw [call_eq_loop, loop_errors]
  simp [start, seed_auto]

theorem call_responseChannel (ep : Endpoint) (b id : String) (v : Values) (auto : Bool)
    (script : List Response) :
    (ep.call b id v auto script).responseChannel =
      script.drop (pages ep.paginates auto script).length := by
  rw [call_eq_loop, loop_responseChannel ep.paginates script _ rfl]
  simp [start, seed_auto]

theorem call_requestsChannel (ep : Endpoint) (b id : String) (v : Values) (auto : Bool)
    (script : List Response) :
    (ep.call b id v auto script).requestsChannel =
      (ep.seed b id v auto).2 ::
        resubmissions ep.paginates auto (ep.seed b id v auto).2 script := by
  rw [call_eq_loop, loop_requestsChannel]
  simp [start, seed_auto]

theorem call_failedReceives (ep : Endpoint) (b id : String) (v : Values) (auto : Bool)
    (script : List Response) :
    (ep.call b id v auto script).failedReceives =
      if exhausts ep.paginates auto script then 1 else 0 := by
  rw [call_eq_loop, loop_failedReceives]
  simp [start, seed_auto]

/-! ## Scripts whose responses carry a token -/

theorem pages_tokens (pre rest : List Response)
    (hpre : ∀ r ∈ pre, r.carriesToken = true) :
    pages true true (pre ++ rest) = pre ++ pages true true rest := by
  induction pre with
  | nil => rfl
  | cons r pre ih =>
    have hr : r.carriesToken = true := hpre r (List.mem_cons_self _ _)
    have ht : ∀ x ∈ pre, x.carriesToken = true :=
      fun x hx => hpre x (List.mem_cons_of_mem _ hx)
    simp [pages, hasNextPage_eq, hr, ih ht]

theorem pages_stop (p auto : Bool) (res : Response) (rest : List Response)
    (h : (p && hasNextPage auto res) = false) :
    pages p auto (res :: rest) = [res] := by
  simp [pages, h]

theorem resubmissions_stop (p auto : Bool) (req : Request) (res : Response)
    (rest : List Response) (h : (p && hasNextPage auto res) = false) :
    resubmissions p auto req (res :: rest) = [] := by
  simp [resubmissions, h]

theorem exhausts_tokens (pre : List Response)
    (hpre : ∀ r ∈ pre, r.carriesToken = true) : exhausts true true pre = true := by
  induction pre with
  | nil => rfl
  | cons r pre ih =>
    have hr : r.carriesToken = true := hpre r (List.mem_cons_self _ _)
    have ht : ∀ x ∈ pre, x.carriesToken = true :=
      fun x hx => hpre x (List.mem_cons_of_mem _ hx)
    simp [exhausts, hasNextPage_eq, hr, ih ht]

theorem call_reaches (ep : Endpoint) (b id : String) (v : Values) (auto : Bool)
    (script : List Response) :
    ep.Reaches b id v auto script (ep.call b id v auto script) :=
  ⟨fuel script, (session_eq_loop _ _ _ _).trans (call_eq_loop ep b id v auto script).symm⟩

theorem reaches_inv (ep : Endpoint) (b id : String) (v : Values) (auto : Bool)
    (script : List Response) (s : State) (h : ep.Reaches b id v auto script s) :
    Inv ep.paginates (ep.seed b id v auto).2 s :=
  reachable_inv _ _ _ _ s h

theorem hasNextPage_congr (auto : Bool) (r1 r2 : Response) (h : r1.Results = r2.Results) :
    hasNextPage auto r1 = hasNextPage auto r2 := by
  simp [hasNextPage, h]

theorem token_congr (r1 r2 : Response) (h : r1.Results = r2.Results) :
    token r1 = token r2 := by
  simp [token, h]

theorem pages_congr (p auto : Bool) (s1 s2 : List Response)
    (h : s1.map Response.Results = s2.map Response.Results) :
    (pages p auto s1).map Response.Results = (pages p auto s2).map Response.Results := by
  induction s1 generalizing s2 with
  | nil =>
    cases s2 with
    | nil => rfl
    | cons r2 t2 => simp at h
  | cons r1 t1 ih =>
    cases s2 with
    | nil => simp at h
    | cons r2 t2 =>
      simp only [List.map_cons, List.cons.injEq] at h
      simp only [pages, hasNextPage_congr auto r1 r2 h.1]
      split
      · simp [h.1, ih t2 h.2]
      · simp [h.1]

theorem resubmissions_congr (p auto : Bool) (req : Request) (s1 s2 : List Response)
    (h : s1.map Response.Results = s2.map Response.Results) :
    resubmissions p auto req s1 = resubmissions p auto req s2 := by
  induction s1 generalizing s2 req with
  | nil =>
    cases s2 with
    | nil => rfl
    | cons r2 t2 => simp at h
  | cons r1 t1 ih =>
    cases s2 with
    | nil => simp at h
    | cons r2 t2 =>
      simp only [List.map_cons, List.cons.injEq] at h
      simp only [resubmissions, hasNextPage_congr auto r1 r2 h.1, token_congr r1 r2 h.1]
      split
      · rw [ih _ t2 h.2]
      · rfl

theorem exhausts_congr (p auto : Bool) (s1 s2 : List Response)
    (h : s1.map Response.Results = s2.map Response.Results) :
    exhausts p auto s1 = exhausts p auto s2 := by
  induction s1 generalizing s2 with
  | nil =>
    cases s2 with
    | nil => rfl
    | cons r2 t2 => simp at h
  | cons r1 t1 ih =>
    cases s2 with
    | nil => simp at h
    | cons r2 t2 =>
      simp only [List.map_cons, List.cons.injEq] at h
      simp only [exhausts, hasNextPage_congr auto r1 r2 h.1, ih t2 h.2]

theorem run_closeData (p : Bool) (s : State) (hpc : s.pc = .closeData)
    (hd : s.dataCloses = 0) (n : Nat) :
    (run p n s).errors = s.errors ∧ (run p n s).errorsCloses = s.errorsCloses ∧
      (run p n s).data = s.data ∧ (run p n s).dataCloses ≤ 1 := by
  cases n with
  | zero => simp [run, hd]
  | succ k =>
    have hs : step p s = { s with pc := .done, dataCloses := s.dataCloses + 1 } := by
      unfold step
      rw [hpc]
      simp [hd]
    simp only [run]
    rw [hs, run_done p k _ rfl]
    simp [hd]

theorem run_closeErrors (p : Bool) (s : State) (hpc : s.pc = .closeErrors)
    (hd : s.dataCloses = 0) (he : s.errorsCloses = 0) :
    (run p 2 s).pc = .done ∧ (run p 2 s).dataCloses = 1 ∧ (run p 2 s).errorsCloses = 1 ∧
      (run p 1 s).pc = .closeData ∧ (run p 2 s).data = s.data ∧
      (run p 2 s).errors = s.errors := by
  obtain ⟨pc, q, rc, qc, req, cons, fr, d, e, dc, ec⟩ := s
  simp only at hpc hd he
  subst hpc hd he
  simp [run, step]

theorem call_q (ep : Endpoint) (b id : String) (v : Values) (auto : Bool)
    (script : List Response) :
    (ep.call b id v auto script).q = NewQueue (15 * Minute / 1500) (15 * Minute) auto := by
  rw [call_eq_loop, loop_q]
  cases ep <;> rfl

theorem lookup_assign_self (v : Values) (k : String) (vs : List String) :
    List.lookup k (Values.assign v k vs) = some vs := by
  simp [Values.assign, List.lookup]

theorem lookup_filter_ne (v : Values) (k key : String) (h : key ≠ k) :
    List.lookup key (v.filter (fun kv => kv.1 != k)) = List.lookup key v := by
  induction v with
  | nil => rfl
  | cons x xs ih =>
    obtain ⟨a, b⟩ := x
    by_cases hak : a = k
    · subst hak
      have hka : (key == a) = false := by simpa using h
      simp [List.filter_cons, List.lookup, hka, ih]
    · have hak2 : (a != k) = true := by simpa using hak
      simp only [List.filter_cons, hak2, if_true, List.lookup]
      rw [ih]

theorem lookup_assign_ne (v : Values) (k key : String) (vs : List String) (h : key ≠ k) :
    List.lookup key (Values.assign v k vs) = List.lookup key v := by
  have hka : (key == k) = false := by simpa using h
  simp only [Values.assign, List.lookup, hka]
  exact lookup_filter_ne v k key h

theorem nextValues_eq (tok : String) : nextValues tok = [("pagination_token", [tok])] := by
  simp [nextValues, Values.Add, Values.assign, Values.index]

theorem nextRequest_values (req : Request) (tok : String) :
    (nextRequest req tok).Values = Values.assign req.Values "pagination_token" [tok] := by
  simp [nextRequest, Request.ResetResults, Request.UpdateURLValues, nextValues_eq]

theorem resubmissions_get (p auto : Bool) (script : List Response) (req : Request)
    (k : Nat) (r : Request)
    (hr : (req :: resubmissions p auto req script)[k + 1]? = some r) :
    ∃ res prev, script[k]? = some res ∧ (pages p auto script)[k]? = some res ∧
      (p && hasNextPage auto res) = true ∧
      (req :: resubmissions p auto req script)[k]? = some prev ∧
      r = nextRequest prev (token res) ∧
      List.lookup "pagination_token" r.Values = some [token res] ∧
      ∀ key, key ≠ "pagination_token" →
        List.lookup key r.Values = List.lookup key req.Values := by
  induction script generalizing req k with
  | nil => simp [resubmissions] at hr
  | cons res rest ih =>
    by_cases hc : (p && hasNextPage auto res) = true
    · simp only [resubmissions, hc, if_true, List.getElem?_cons_succ] at hr ⊢
      cases k with
      | zero =>
        simp only [List.getElem?_cons_zero, Option.some.injEq] at hr
        subst hr
        refine ⟨res, req, by simp, by simp [pages, hc], hc, by simp, rfl, ?_, ?_⟩
        · rw [nextRequest_values]; exact lookup_assign_self _ _ _
        · intro key hkey
          rw [nextRequest_values]; exact lookup_assign_ne _ _ _ _ hkey
      | succ j =>
        obtain ⟨res2, prev, h1, h2, h3, h4, h5, h6, h7⟩ :=
          ih (nextRequest req (token res)) j hr
        refine ⟨res2, prev, by simpa using h1, by simpa [pages, hc] using h2, h3,
          by simpa using h4, h5, h6, ?_⟩
        intro key hkey
        rw [h7 key hkey, nextRequest_values]
        exact lookup_assign_ne _ _ _ _ hkey
    · have hc2 : (p && hasNextPage auto res) = false := by simpa using hc
      simp [resubmissions, hc2] at hr

theorem interval_value : 15 * Minute / 1500 = 600000000 := by
  norm_num [Minute]

theorem window_value : 15 * Minute = 900000000000 := by
  norm_num [Minute]

theorem call_window (ep : Endpoint) (b id : String) (v : Values) (auto : Bool)
    (script : List Response) : (ep.call b id v auto script).q.window = 900000000000 := by
  rw [call_q]
  exact window_value

theorem call_interval (ep : Endpoint) (b id : String) (v : Values) (auto : Bool)
    (script : List Response) : (ep.call b id v auto script).q.interval = 600000000 := by
  rw [call_q]
  exact interval_value

/-! ## Claims -/

/-- C1. Pagination termination: a paginating endpoint run with auto = true
on a script whose first n-1 responses carry a non-empty NextToken and whose
n-th response carries none receives exactly these n responses, emits
exactly n values on data, has sent exactly n requests to the queue, and
has returned with both channels closed once. -/
theorem pagination_termination (ep : Endpoint) (hp : ep.paginates = true)
    (b id : String) (v : Values) (pre : List Response) (last : Response)
    (hpre : ∀ r ∈ pre, r.carriesToken = true) (hlast : last.carriesToken = false) :
    (ep.call b id v true (pre ++ [last])).consumed = pre ++ [last] ∧
    (ep.call b id v true (pre ++ [last])).data.length = pre.length + 1 ∧
    (ep.call b id v true (pre ++ [last])).requestsChannel.length = pre.length + 1 ∧
    (ep.call b id v true (pre ++ [last])).pc = .done ∧
    (ep.call b id v true (pre ++ [last])).dataCloses = 1 ∧
    (ep.call b id v true (pre ++ [last])).errorsCloses = 1 := by
  have hstop : (true && hasNextPage true last) = false := by
    simp [hasNextPage_eq, hlast]
  have hpg : pages true true (pre ++ [last]) = pre ++ [last] := by
    rw [pages_tokens pre [last] hpre, pages_stop true true last [] hstop]
  have hcount : ((pre ++ [last]).filter (fun res => true && hasNextPage true res)).length =
      pre.length := by
    have h1 : pre.filter (fun res => true && hasNextPage true res) = pre := by
      rw [List.filter_eq_self]
      intro r hr
      simp [hasNextPage_eq, hpre r hr]
    rw [List.filter_append, h1]
    simp [List.filter_cons, hasNextPage_eq, hlast]
  refine ⟨?_, ?_, ?_, call_pc _ _ _ _ _ _, call_dataCloses _ _ _ _ _ _,
    call_errorsCloses _ _ _ _ _ _⟩
  · rw [call_consumed, hp, hpg]
  · rw [call_data, hp, hpg]; simp
  · rw [call_requestsChannel, hp, List.length_cons, resubmissions_length, hpg, hcount]

/-- C2. Pagination suppression: an endpoint whose queue has auto = false
(each of the three paginating ones in particular), on any non-empty script,
receives the first response only, emits exactly its payload on data, sends
no request besides the seed, never receives again, and has returned with
both channels closed once. -/
theorem pagination_suppression (ep : Endpoint)
    (b id : String) (v : Values) (res : Response) (rest : List Response) :
    (ep.call b id v false (res :: rest)).consumed = [res] ∧
    (ep.call b id v false (res :: rest)).data = [res.Results] ∧
    (ep.call b id v false (res :: rest)).requestsChannel.length = 1 ∧
    (ep.call b id v false (res :: rest)).responseChannel = rest ∧
    (ep.call b id v false (res :: rest)).failedReceives = 0 ∧
    (ep.call b id v false (res :: rest)).pc = .done ∧
    (ep.call b id v false (res :: rest)).dataCloses = 1 ∧
    (ep.call b id v false (res :: rest)).errorsCloses = 1 := by
  have hstop : (ep.paginates && hasNextPage false res) = false := by
    simp [hasNextPage_eq]
  refine ⟨?_, ?_, ?_, ?_, ?_, call_pc _ _ _ _ _ _, call_dataCloses _ _ _ _ _ _,
    call_errorsCloses _ _ _ _ _ _⟩
  · rw [call_consumed, pages_stop _ _ _ _ hstop]
  · rw [call_data, pages_stop _ _ _ _ hstop]; rfl
  · rw [call_requestsChannel, resubmissions_stop _ _ _ _ _ hstop]; rfl
  · rw [call_responseChannel, pages_stop _ _ _ _ hstop]; rfl
  · rw [call_failedReceives]; simp [exhausts, hstop]

/-- C3. Non-paginating endpoint: GetTweetByID and GetReTweetedBy, for every
auto flag and every non-empty script, receive exactly the first response and
emit exactly its payload on data, whatever token that payload carries; in no
state of the session has the request been updated, reset or resubmitted. -/
theorem non_paginating_endpoint (ep : Endpoint) (hp : ep.paginates = false)
    (b id : String) (v : Values) (auto : Bool) (res : Response) (rest : List Response) :
    (ep.call b id v auto (res :: rest)).consumed = [res] ∧
    (ep.call b id v auto (res :: rest)).data = [res.Results] ∧
    (ep.call b id v auto (res :: rest)).responseChannel = rest ∧
    (ep.call b id v auto (res :: rest)).failedReceives = 0 ∧
    (ep.call b id v auto (res :: rest)).pc = .done ∧
    ∀ s, ep.Reaches b id v auto (res :: rest) s →
      s.req = (ep.seed b id v auto).2 ∧
      s.requestsChannel = [(ep.seed b id v auto).2] ∧
      (∀ tok, s.pc ≠ .update tok) ∧ s.pc ≠ .reset ∧ s.pc ≠ .resubmit := by
  have hstop : (ep.paginates && hasNextPage auto res) = false := by simp [hp]
  refine ⟨?_, ?_, ?_, ?_, call_pc _ _ _ _ _ _, ?_⟩
  · rw [call_consumed, pages_stop _ _ _ _ hstop]
  · rw [call_data, pages_stop _ _ _ _ hstop]; rfl
  · rw [call_responseChannel, pages_stop _ _ _ _ hstop]; rfl
  · rw [call_failedReceives]; simp [exhausts, hstop]
  · intro s hs
    obtain ⟨_, _, _, _, hnp⟩ := reaches_inv ep b id v auto _ s hs
    obtain ⟨hreq, hsent, hpc⟩ := hnp hp
    refine ⟨hreq, hsent, ?_, ?_, ?_⟩
    · intro tok h
      rw [h] at hpc
      exact hpc
    · intro h
      rw [h] at hpc
      exact hpc
    · intro h
      rw [h] at hpc
      exact hpc

/-- C4. Relay of payloads and errors: for every endpoint, auto flag and
script, the responses received are the first responses of the script in
order, the values emitted on data are exactly their payloads in order, one
per received response, and the values emitted on errors are exactly their
non-nil errors in order; so errors are at most as many as data values. -/
theorem relay_of_payloads_and_errors (ep : Endpoint) (b id : String) (v : Values)
    (auto : Bool) (script : List Response) :
    (ep.call b id v auto script).consumed ++ (ep.call b id v auto script).responseChannel
      = script ∧
    (ep.call b id v auto script).data =
      (ep.call b id v auto script).consumed.map Response.Results ∧
    (ep.call b id v auto script).errors =
      (ep.call b id v auto script).consumed.filterMap Response.Error ∧
    (ep.call b id v auto script).data.length =
      (ep.call b id v auto script).consumed.length ∧
    (ep.call b id v auto script).errors.length ≤
      (ep.call b id v auto script).data.length := by
  refine ⟨?_, ?_, ?_, ?_, ?_⟩
  · rw [call_consumed, call_responseChannel]
    exact pages_prefix _ _ _
  · rw [call_consumed, call_data]
  · rw [call_consumed, call_errors]
  · rw [call_consumed, call_data, List.length_map]
  · rw [call_errors, call_data, List.length_map]
    exact List.length_filterMap_le _ _

/-- C5. Silent continue on error: the continue-or-terminate decisions of
an endpoint do not depend on the errors of the responses: two scripts with
the same payloads lead to the same requests sent, the same data emitted and the
same number of responses received. In particular a paginating endpoint with
auto = true whose first response has a non-nil error and a non-empty
NextToken emits that error first on errors and resubmits the updated
request. -/
theorem silent_continue_on_error (ep : Endpoint) (b id : String) (v : Values)
    (auto : Bool) (s1 s2 : List Response)
    (h : s1.map Response.Results = s2.map Response.Results) :
    ((ep.call b id v auto s1).requestsChannel = (ep.call b id v auto s2).requestsChannel ∧
     (ep.call b id v auto s1).data = (ep.call b id v auto s2).data ∧
     (ep.call b id v auto s1).consumed.length = (ep.call b id v auto s2).consumed.length ∧
     (ep.call b id v auto s1).failedReceives = (ep.call b id v auto s2).failedReceives) ∧
    ∀ (res : Response) (rest : List Response) (err : String),
      ep.paginates = true → res.Error = some err → res.carriesToken = true →
      (ep.call b id v true (res :: rest)).errors.take 1 = [err] ∧
      (ep.call b id v true (res :: rest)).requestsChannel.take 2 =
        [(ep.seed b id v true).2, nextRequest (ep.seed b id v true).2 (token res)] := by
  refine ⟨⟨?_, ?_, ?_, ?_⟩, ?_⟩
  · rw [call_requestsChannel, call_requestsChannel, resubmissions_congr _ _ _ s1 s2 h]
  · rw [call_data, call_data, pages_congr _ _ s1 s2 h]
  · have := congrArg List.length (pages_congr ep.paginates auto s1 s2 h)
    simpa [call_consumed] using this
  · rw [call_failedReceives, call_failedReceives, exhausts_congr _ _ s1 s2 h]
  · intro res rest err hp herr htok
    have hgo : (true && hasNextPage true res) = true := by simp [hasNextPage_eq, htok]
    constructor
    · rw [call_errors, hp]
      simp [pages, hgo, herr, List.filterMap_cons]
    · rw [call_requestsChannel, hp]
      simp [resubmissions, hgo]

/-- C6. Channel closing: every call of every endpoint returns with data and
errors each closed exactly once. In every state of the session no channel
operation has panicked and neither channel has been closed more than once;
both channels are open as long as the loop runs; at loop exit the
two deferred closes run one right after the other; and once a channel is
closed nothing more is sent on it. -/
theorem channel_closing (ep : Endpoint) (b id : String) (v : Values) (auto : Bool)
    (script : List Response) :
    ((ep.call b id v auto script).pc = .done ∧
     (ep.call b id v auto script).dataCloses = 1 ∧
     (ep.call b id v auto script).errorsCloses = 1) ∧
    ∀ s, ep.Reaches b id v auto script s →
      s.pc ≠ .panicked ∧ s.dataCloses ≤ 1 ∧ s.errorsCloses ≤ 1 ∧
      (s.pc ≠ .closeData → s.pc ≠ .done → s.dataCloses = 0 ∧ s.errorsCloses = 0) ∧
      (s.pc = .closeErrors →
        (run ep.paginates 1 s).pc = .closeData ∧ (run ep.paginates 2 s).pc = .done ∧
        (run ep.paginates 2 s).dataCloses = 1 ∧ (run ep.paginates 2 s).errorsCloses = 1) ∧
      (s.errorsCloses ≠ 0 → ∀ n, (run ep.paginates n s).errors = s.errors ∧
        (run ep.paginates n s).errorsCloses = 1) ∧
      (s.dataCloses ≠ 0 → ∀ n, (run ep.paginates n s).data = s.data ∧
        (run ep.paginates n s).dataCloses = 1) := by
  refine ⟨⟨call_pc _ _ _ _ _ _, call_dataCloses _ _ _ _ _ _, call_errorsCloses _ _ _ _ _ _⟩, ?_⟩
  intro s hs
  obtain ⟨hpan, hcl, _, _, _⟩ := reaches_inv ep b id v auto _ s hs
  refine ⟨hpan, ?_, ?_, ?_, ?_, ?_, ?_⟩
  · cases hpc : s.pc <;> rw [hpc] at hcl <;> simp only at hcl <;> omega
  · cases hpc : s.pc <;> rw [hpc] at hcl <;> simp only at hcl <;> omega
  · intro h1 h2
    cases hpc : s.pc <;> rw [hpc] at hcl <;> simp only at hcl <;>
      first
        | exact ⟨hcl.2, hcl.1⟩
        | exact absurd hpc h1
        | exact absurd hpc h2
  · intro hpc
    rw [hpc] at hcl
    simp only at hcl
    have := run_closeErrors ep.paginates s hpc hcl.2 hcl.1
    exact ⟨this.2.2.2.1, this.1, this.2.1, this.2.2.1⟩
  · intro hne n
    cases hpc : s.pc <;> rw [hpc] at hcl <;> simp only at hcl <;>
      first
        | exact absurd hcl.1 hne
        | skip
    · have := run_closeData ep.paginates s hpc hcl.2 n
      exact ⟨this.1, by rw [this.2.1, hcl.1]⟩
    · rw [run_done _ _ _ hpc]
      exact ⟨rfl, hcl.1⟩
  · intro hne n
    cases hpc : s.pc <;> rw [hpc] at hcl <;> simp only at hcl <;>
      first
        | exact absurd hcl.2 hne
        | skip
    rw [run_done _ _ _ hpc]
    exact ⟨rfl, hcl.2⟩

/-- C8. Pacing budget, as the code has it: every one of the five endpoints
creates its queue with interval = 15 minutes / 1500 = 600,000,000 ns and
window = 15 minutes, whereas window / N for the rate limit N of the doc
comment is 2,000,000,000 ns for GetUserMentions (450) and 3,000,000,000 ns
for GetTweets, GetTweetByID and GetReTweetedBy (300); only GetUserTweets
(1500) has interval = window / N. -/
theorem pacing_budget_in_code (b id : String) (v : Values) (auto : Bool)
    (script : List Response) :
    (∀ ep : Endpoint,
      (ep.call b id v auto script).q.interval = 600000000 ∧
      (ep.call b id v auto script).q.window = 900000000000 ∧
      (ep.call b id v auto script).q.window / (ep.call b id v auto script).q.interval = 1500) ∧
    (GetUserMentions b id v auto script).q.window / Endpoint.userMentions.documentedRateLimit
      = 2000000000 ∧
    (GetUserTweets b id v auto script).q.window / Endpoint.userTweets.documentedRateLimit
      = 600000000 ∧
    (GetTweets b v auto script).q.window / Endpoint.tweets.documentedRateLimit
      = 3000000000 ∧
    (GetTweetByID b id v auto script).q.window / Endpoint.tweetByID.documentedRateLimit
      = 3000000000 ∧
    (GetReTweetedBy b id v auto script).q.window / Endpoint.reTweetedBy.documentedRateLimit
      = 3000000000 := by
  have h1 : (GetUserMentions b id v auto script).q.window = 900000000000 :=
    call_window .userMentions b id v auto script
  have h2 : (GetUserTweets b id v auto script).q.window = 900000000000 :=
    call_window .userTweets b id v auto script
  have h3 : (GetTweets b v auto script).q.window = 900000000000 :=
    call_window .tweets b id v auto script
  have h4 : (GetTweetByID b id v auto script).q.window = 900000000000 :=
    call_window .tweetByID b id v auto script
  have h5 : (GetReTweetedBy b id v auto script).q.window = 900000000000 :=
    call_window .reTweetedBy b id v auto script
  refine ⟨?_, ?_, ?_, ?_, ?_, ?_⟩
  · intro ep
    rw [call_interval, call_window]
    exact ⟨rfl, rfl, by norm_num⟩
  · rw [h1]; simp only [Endpoint.documentedRateLimit]
  · rw [h2]; simp only [Endpoint.documentedRateLimit]
  · rw [h3]; simp only [Endpoint.documentedRateLimit]
  · rw [h4]; simp only [Endpoint.documentedRateLimit]
  · rw [h5]; simp only [Endpoint.documentedRateLimit]

/-- C9, as the code has it. Exit on closed response channel: when every
response of the script makes the endpoint continue (a paginating endpoint
with auto = true and a non-empty NextToken in each of the k responses; for
the other endpoints and for auto = false this means k = 0), the endpoint
receives all k responses, then one receive fails on the closed channel and
the loop exits: exactly k values are on data, none for the failed receive,
the errors are those of the k responses, k requests were resubmitted, and
both channels are closed once. For k = 0 nothing is emitted and nothing is
resubmitted. -/
theorem exit_on_closed_channel (ep : Endpoint) (b id : String) (v : Values)
    (auto : Bool) (script : List Response)
    (h : ∀ r ∈ script, ep.paginates = true ∧ auto = true ∧ r.carriesToken = true) :
    (ep.call b id v auto script).failedReceives = 1 ∧
    (ep.call b id v auto script).consumed = script ∧
    (ep.call b id v auto script).data = script.map Response.Results ∧
    (ep.call b id v auto script).data.length = script.length ∧
    (ep.call b id v auto script).errors = script.filterMap Response.Error ∧
    (ep.call b id v auto script).requestsChannel.length = script.length + 1 ∧
    (ep.call b id v auto script).responseChannel = [] ∧
    (ep.call b id v auto script).pc = .done ∧
    (ep.call b id v auto script).dataCloses = 1 ∧
    (ep.call b id v auto script).errorsCloses = 1 ∧
    ((ep.call b id v auto []).data = [] ∧ (ep.call b id v auto []).errors = [] ∧
      (ep.call b id v auto []).requestsChannel = [(ep.seed b id v auto).2] ∧
      (ep.call b id v auto []).failedReceives = 1) := by
  have hgo : ∀ r ∈ script, (ep.paginates && hasNextPage auto r) = true := by
    intro r hr
    obtain ⟨h1, h2, h3⟩ := h r hr
    simp [hasNextPage_eq, h1, h2, h3]
  have hpg : pages ep.paginates auto script = script := by
    clear h
    induction script with
    | nil => rfl
    | cons r rest ih =>
      have h1 := hgo r (List.mem_cons_self _ _)
      have h2 : ∀ x ∈ rest, (ep.paginates && hasNextPage auto x) = true :=
        fun x hx => hgo x (List.mem_cons_of_mem _ hx)
      simp only [pages, h1, if_true, ih h2]
  have hex : exhausts ep.paginates auto script = true := by
    clear h hpg
    induction script with
    | nil => rfl
    | cons r rest ih =>
      have h1 := hgo r (List.mem_cons_self _ _)
      have h2 : ∀ x ∈ rest, (ep.paginates && hasNextPage auto x) = true :=
        fun x hx => hgo x (List.mem_cons_of_mem _ hx)
      simp only [exhausts, h1, ih h2, Bool.and_self]
  have hfl : (script.filter (fun res => ep.paginates && hasNextPage auto res)) = script := by
    rw [List.filter_eq_self]
    exact hgo
  refine ⟨?_, ?_, ?_, ?_, ?_, ?_, ?_, call_pc _ _ _ _ _ _, call_dataCloses _ _ _ _ _ _,
    call_errorsCloses _ _ _ _ _ _, ?_, ?_, ?_, ?_⟩
  · rw [call_failedReceives, hex]; rfl
  · rw [call_consumed, hpg]
  · rw [call_data, hpg]
  · rw [call_data, hpg, List.length_map]
  · rw [call_errors, hpg]
  · rw [call_requestsChannel, List.length_cons, resubmissions_length, hpg, hfl]
  · rw [call_responseChannel, hpg]; simp
  · rw [call_data]; rfl
  · rw [call_errors]; rfl
  · rw [call_requestsChannel]; rfl
  · rw [call_failedReceives]; rfl

/-- C10. At most one request in flight: in every state of a session the
requests sent exceed the responses received by 0 or 1; when the goroutine is
about to resubmit, every request sent so far has had its response received,
and every received payload and error has been relayed; at the end the
requests sent number 1 plus the received responses that passed the
continuation check; GetTweetByID and GetReTweetedBy never send a request
beyond the seed. -/
theorem at_most_one_request_in_flight (ep : Endpoint) (b id : String) (v : Values)
    (auto : Bool) (script : List Response) :
    (∀ s, ep.Reaches b id v auto script s →
      (s.requestsChannel.length = s.consumed.length ∨
        s.requestsChannel.length = s.consumed.length + 1) ∧
      (s.pc = .resubmit →
        s.requestsChannel.length = s.consumed.length ∧
        s.data = s.consumed.map Response.Results ∧
        s.errors = s.consumed.filterMap Response.Error) ∧
      (s.pc = .recv → s.requestsChannel.length = s.consumed.length + 1) ∧
      (ep.paginates = false → s.requestsChannel.length = 1)) ∧
    (ep.call b id v auto script).requestsChannel.length =
      1 + ((ep.call b id v auto script).consumed.filter
            (fun res => ep.paginates && hasNextPage auto res)).length ∧
    (ep.paginates = true →
      (ep.call b id v auto script).requestsChannel.length =
        1 + ((ep.call b id v auto script).consumed.filter (hasNextPage auto)).length) ∧
    (ep.paginates = false → (ep.call b id v auto script).requestsChannel.length = 1) := by
  have hfinal : (ep.call b id v auto script).requestsChannel.length =
      1 + ((ep.call b id v auto script).consumed.filter
            (fun res => ep.paginates && hasNextPage auto res)).length := by
    rw [call_requestsChannel, call_consumed, List.length_cons, resubmissions_length]
    omega
  refine ⟨?_, hfinal, ?_, ?_⟩
  · intro s hs
    obtain ⟨_, _, hfl, hrel, hnp⟩ := reaches_inv ep b id v auto _ s hs
    refine ⟨?_, ?_, ?_, ?_⟩
    · cases hpc : s.pc <;> rw [hpc] at hfl <;> simp only at hfl <;>
        first
          | exact hfl
          | exact Or.inl hfl
          | exact Or.inr hfl
    · intro hpc
      rw [hpc] at hfl hrel
      exact ⟨hfl, hrel.1, hrel.2⟩
    · intro hpc
      rw [hpc] at hfl
      exact hfl
    · intro hp
      rw [(hnp hp).2.1]
      rfl
  · intro hp
    rw [hfinal, hp]
    simp
  · intro hp
    rw [hfinal, hp]
    simp

/-- C7. Parameter merging: the values built for a resubmission are exactly
the one key pagination_token bound to the one token just read. The request
sent as the (k+1)-th (after k+1 pagination rounds) is the previously sent
request updated with the values built from the NextToken of the (k+1)-th
received response and then reset; with the merge-update of the spec its
query parameters bind pagination_token to exactly that latest token and
bind every other key as the caller's original parameters do. -/
theorem parameter_merging (ep : Endpoint) (b id : String) (v : Values) (auto : Bool)
    (script : List Response) (k : Nat) (r : Request)
    (hr : (ep.call b id v auto script).requestsChannel[k + 1]? = some r) :
    ∃ res prev,
      (ep.call b id v auto script).consumed[k]? = some res ∧
      res.carriesToken = true ∧ ep.paginates = true ∧
      (ep.call b id v auto script).requestsChannel[k]? = some prev ∧
      nextValues (token res) = [("pagination_token", [token res])] ∧
      r = (prev.UpdateURLValues (nextValues (token res))).ResetResults ∧
      r.Values.index "pagination_token" = [token res] ∧
      r.Values.has "pagination_token" = true ∧
      ∀ key, key ≠ "pagination_token" →
        r.Values.index key = v.index key ∧ r.Values.has key = v.has key := by
  rw [call_requestsChannel] at hr
  obtain ⟨res, prev, _, h2, h3, h4, h5, h6, h7⟩ :=
    resubmissions_get _ _ _ _ k r hr
  have h3b : ep.paginates = true ∧ res.carriesToken = true := by
    rw [hasNextPage_eq] at h3
    simp only [Bool.and_eq_true] at h3
    exact ⟨h3.1, h3.2.1⟩
  refine ⟨res, prev, ?_, h3b.2, h3b.1, ?_, nextValues_eq _, h5, ?_, ?_, ?_⟩
  · rw [call_consumed]; exact h2
  · rw [call_requestsChannel]; exact h4
  · simp [Values.index, h6]
  · simp [Values.has, h6]
  · intro key hkey
    have := h7 key hkey
    rw [seed_values] at this
    simp [Values.index, Values.has, this]

/-! ## The claims on sample inputs -/

theorem pagination_termination_witness :
    Endpoint.userMentions.paginates = true ∧
    (∀ r ∈ [page1, page2], r.carriesToken = true) ∧ page3.carriesToken = false ∧
    (Endpoint.userMentions.call sampleBase "12" sampleValues true
      ([page1, page2] ++ [page3])).data.length = 3 ∧
    (Endpoint.userMentions.call sampleBase "12" sampleValues true
      ([page1, page2] ++ [page3])).requestsChannel.length = 3 ∧
    (Endpoint.userMentions.call sampleBase "12" sampleValues true
      ([page1, page2] ++ [page3])).dataCloses = 1 ∧
    (Endpoint.userMentions.call sampleBase "12" sampleValues true
      ([page1, page2] ++ [page3])).errorsCloses = 1 :=
  have h := pagination_termination .userMentions rfl sampleBase "12" sampleValues
    [page1, page2] page3 (by decide) (by decide)
  ⟨rfl, by decide, by decide, h.2.1, h.2.2.1, h.2.2.2.2.1, h.2.2.2.2.2⟩

theorem non_paginating_endpoint_witness :
    Endpoint.tweetByID.paginates = false ∧
    Endpoint.tweetByID.Reaches sampleBase "20" sampleValues true [page1, page2]
      (Endpoint.tweetByID.call sampleBase "20" sampleValues true [page1, page2]) ∧
    (Endpoint.tweetByID.call sampleBase "20" sampleValues true [page1, page2]).consumed
      = [page1] ∧
    (Endpoint.tweetByID.call sampleBase "20" sampleValues true [page1, page2]).data
      = [page1.Results] ∧
    (Endpoint.tweetByID.call sampleBase "20" sampleValues true [page1, page2]).requestsChannel
      = [(Endpoint.tweetByID.seed sampleBase "20" sampleValues true).2] :=
  have h := non_paginating_endpoint .tweetByID rfl sampleBase "20" sampleValues true
    page1 [page2]
  ⟨rfl, call_reaches _ _ _ _ _ _, h.1, h.2.1,
    (h.2.2.2.2.2 _ (call_reaches _ _ _ _ _ _)).2.1⟩

theorem silent_continue_on_error_witness :
    [page1, page3].map Response.Results = [page1Failed, page3].map Response.Results ∧
    (Endpoint.userTweets.call sampleBase "12" sampleValues true [page1, page3]).requestsChannel
      = (Endpoint.userTweets.call sampleBase "12" sampleValues true
          [page1Failed, page3]).requestsChannel ∧
    Endpoint.userTweets.paginates = true ∧
    page1Failed.Error = some "rate limit exceeded" ∧ page1Failed.carriesToken = true ∧
    (Endpoint.userTweets.call sampleBase "12" sampleValues true
      (page1Failed :: [page3])).errors.take 1 = ["rate limit exceeded"] :=
  have h := silent_continue_on_error .userTweets sampleBase "12" sampleValues true
    [page1, page3] [page1Failed, page3] rfl
  ⟨rfl, h.1.1, rfl, rfl, by decide, (h.2 page1Failed [page3] _ rfl rfl (by decide)).1⟩

theorem channel_closing_witness :
    Endpoint.tweets.Reaches sampleBase "" sampleValues true [page1Failed, page3]
      (Endpoint.tweets.call sampleBase "" sampleValues true [page1Failed, page3]) ∧
    (Endpoint.tweets.call sampleBase "" sampleValues true [page1Failed, page3]).pc
      ≠ .panicked ∧
    (Endpoint.tweets.call sampleBase "" sampleValues true [page1Failed, page3]).dataCloses
      = 1 ∧
    (Endpoint.tweets.call sampleBase "" sampleValues true [page1Failed, page3]).errorsCloses
      = 1 :=
  have h := channel_closing .tweets sampleBase "" sampleValues true [page1Failed, page3]
  ⟨call_reaches _ _ _ _ _ _, (h.2 _ (call_reaches _ _ _ _ _ _)).1, h.1.2.1, h.1.2.2⟩

theorem exit_on_closed_channel_witness :
    (∀ r ∈ [page1, page2],
      Endpoint.userTweets.paginates = true ∧ true = true ∧ r.carriesToken = true) ∧
    (Endpoint.userTweets.call sampleBase "12" sampleValues true [page1, page2]).failedReceives
      = 1 ∧
    (Endpoint.userTweets.call sampleBase "12" sampleValues true [page1, page2]).data.length
      = 2 ∧
    (Endpoint.userTweets.call sampleBase "12" sampleValues true [page1, page2]).dataCloses
      = 1 :=
  have h := exit_on_closed_channel .userTweets sampleBase "12" sampleValues true
    [page1, page2] (by decide)
  ⟨by decide, h.1, h.2.2.2.1, h.2.2.2.2.2.2.2.2.1⟩

/-- C9, the claim as written fails: GetTweetByID, delivered one response
before the response channel is closed, returns after relaying it and never
performs a receive that fails. -/
theorem exit_on_closed_channel_counterexample :
    (GetTweetByID sampleBase "20" sampleValues true [tweet]).consumed.length = 1 ∧
    (GetTweetByID sampleBase "20" sampleValues true [tweet]).pc = .done ∧
    (GetTweetByID sampleBase "20" sampleValues true [tweet]).failedReceives = 0 ∧
    ¬ (GetTweetByID sampleBase "20" sampleValues true [tweet]).failedReceives = 1 := by
  decide

theorem at_most_one_request_in_flight_witness :
    Endpoint.userMentions.Reaches sampleBase "12" sampleValues true [page1, page3]
      (run true 6 (start (Endpoint.userMentions.seed sampleBase "12" sampleValues true).1
        (Endpoint.userMentions.seed sampleBase "12" sampleValues true).2 [page1, page3])) ∧
    (run true 6 (start (Endpoint.userMentions.seed sampleBase "12" sampleValues true).1
        (Endpoint.userMentions.seed sampleBase "12" sampleValues true).2
        [page1, page3])).pc = .resubmit ∧
    (run true 6 (start (Endpoint.userMentions.seed sampleBase "12" sampleValues true).1
        (Endpoint.userMentions.seed sampleBase "12" sampleValues true).2
        [page1, page3])).requestsChannel.length =
      (run true 6 (start (Endpoint.userMentions.seed sampleBase "12" sampleValues true).1
        (Endpoint.userMentions.seed sampleBase "12" sampleValues true).2
        [page1, page3])).consumed.length :=
  have h := at_most_one_request_in_flight .userMentions sampleBase "12" sampleValues true
    [page1, page3]
  ⟨⟨6, rfl⟩, by decide, ((h.1 _ ⟨6, rfl⟩).2.1 (by decide)).1⟩

theorem parameter_merging_witness :
    (Endpoint.userMentions.call sampleBase "12" sampleValues true
      [page1, page2, page3]).requestsChannel[1 + 1]? =
      some (nextRequest (nextRequest
        (Endpoint.userMentions.seed sampleBase "12" sampleValues true).2 "T1") "T2") ∧
    Values.index (nextRequest (nextRequest
        (Endpoint.userMentions.seed sampleBase "12" sampleValues true).2 "T1") "T2").Values
      "pagination_token" = ["T2"] ∧
    Values.index (nextRequest (nextRequest
        (Endpoint.userMentions.seed sampleBase "12" sampleValues true).2 "T1") "T2").Values
      "max_results" = ["5"] := by
  have hr : (Endpoint.userMentions.call sampleBase "12" sampleValues true
      [page1, page2, page3]).requestsChannel[1 + 1]? =
      some (nextRequest (nextRequest
        (Endpoint.userMentions.seed sampleBase "12" sampleValues true).2 "T1") "T2") := by
    decide
  obtain ⟨res, prev, hc, _, _, _, _, _, hidx, _, hkeys⟩ :=
    parameter_merging .userMentions sampleBase "12" sampleValues true
      [page1, page2, page3] 1 _ hr
  have hres : res = page2 := by
    have h2 : (Endpoint.userMentions.call sampleBase "12" sampleValues true
        [page1, page2, page3]).consumed[1]? = some page2 := by decide
    rw [h2] at hc
    exact (Option.some.inj hc).symm
  subst hres
  exact ⟨hr, hidx, (hkeys "max_results" (by decide)).1.trans (by decide)⟩

end Twitter
